import Mathlib

/-
Verification of the hatchet event-triggered middleware-wrapped step execution
pipeline, and of the custom-OAuth callback handlers.

The example program (src/unnamed/part_000) registers two process-wide
middlewares, a service middleware, and a two-step workflow job, then pushes one
event.  The worker runtime itself (pkg/worker) is not part of the sources, so
the chain composition, job sequencing, dispatch and lifecycle are modelled from
the specification; the concrete middlewares and steps are translated from the
example source.  The OAuth callback handlers are translated directly from
src/api/v1/server/handlers/users/custom_oauth_callback.go, with their external
collaborators (session helpers, token exchange, encryption service, user
repository) as oracle parameters.
-/

namespace Hatchet

/-- A Go interface value stored in a context entry: in this program only
strings are ever stored, and `other` stands for any non-string value. -/
inductive GoVal where
  | str (s : String)
  | other
deriving DecidableEq, Repr

/-- Modelled from the spec: the ExecutionContext is an immutable-append
key/value bag; `context.WithValue` derives a child carrying all ancestor
entries plus the new one, and lookup returns the most recently added entry. -/
abbrev Ctx := List (String × GoVal)

/-- Go `context.WithValue`: derive a child context with one more entry. -/
def withValue (ctx : Ctx) (k : String) (v : GoVal) : Ctx := (k, v) :: ctx

/-- Go `ctx.Value(k)`: the most recently added entry for `k`, if any. -/
def ctxValue (ctx : Ctx) (k : String) : Option GoVal :=
  (ctx.find? (fun p => p.1 = k)).map (fun p => p.2)

/-- A run-level failure: an ordinary returned error, or a Go panic. -/
inductive Failure where
  | err (msg : String)
  | panic (msg : String)
deriving DecidableEq, Repr

/-- Go type assertion `v.(string)` applied to the result of `ctx.Value(k)`:
it panics when the key is absent (`nil` interface) or holds a non-string. -/
def assertString (v : Option GoVal) : Except Failure String :=
  match v with
  | some (.str s) => .ok s
  | some .other => .error (.panic "interface conversion: value is not a string")
  | none => .error (.panic "interface conversion: nil is not a string")

/-- The final step output type of the example job (stepOneOutput in the
source). -/
structure StepOneOutput where
  message : String
deriving DecidableEq, Repr

/-- The event payload type of the example (userCreateEvent in the source). -/
structure UserCreateEvent where
  username : String
  userId : String
  data : List (String × String)
deriving DecidableEq, Repr

/-- Modelled from the spec: the observable result of one composed-chain
invocation — the writes made to the events channel in order, the error
returned by the outermost middleware (none on success), and the job's final
output (none when the terminal operation never ran or failed). -/
abbrev Res := List String × Option Failure × Option StepOneOutput

/-- Modelled from the spec: a middleware is `(ctx, next) -> error`; here it is
a pure function from the context and the remainder of the chain to the
invocation result, which also records the events-channel writes it makes. -/
def Middleware := Ctx → (Ctx → Res) → Res

/-- Modelled from the spec: `Invoke` composes the chain so that
middleware[0] wraps middleware[1] wraps … wraps the terminal operation. -/
def invokeChain (mws : List Middleware) (term : Ctx → Res) : Ctx → Res :=
  match mws with
  | [] => term
  | mw :: rest => fun ctx => mw ctx (invokeChain rest term)

/-- First process-wide middleware from the example source: emits
"1st-middleware" on the events channel, then calls `next` with
`testkey=testvalue` added to the context. -/
def mw1 : Middleware := fun ctx next =>
  let r := next (withValue ctx "testkey" (.str "testvalue"))
  ("1st-middleware" :: r.1, r.2.1, r.2.2)

/-- Second process-wide middleware from the example source: emits
"2nd-middleware", times the downstream call (timing not observable here), and
returns the error from `next` unmodified. -/
def mw2 : Middleware := fun ctx next =>
  let r := next ctx
  ("2nd-middleware" :: r.1, r.2.1, r.2.2)

/-- The service middleware from the example source: emits "svc-middleware",
then calls `next` with `svckey=svcvalue` added to the context. -/
def svcMw : Middleware := fun ctx next =>
  let r := next (withValue ctx "svckey" (.str "svcvalue"))
  ("svc-middleware" :: r.1, r.2.1, r.2.2)

/-- The step-one handler from the example source: emits "step-one", reads
`testkey` and `svckey` from the context with unchecked `.(string)` type
assertions (emitting each value), and returns `Username is: ` + username. -/
def stepOne (ctx : Ctx) (input : UserCreateEvent) :
    List String × Except Failure StepOneOutput :=
  match assertString (ctxValue ctx "testkey") with
  | .error f => (["step-one"], .error f)
  | .ok testVal =>
    match assertString (ctxValue ctx "svckey") with
    | .error f => (["step-one", testVal], .error f)
    | .ok svcVal =>
      (["step-one", testVal, svcVal],
       .ok ⟨"Username is: " ++ input.username⟩)

/-- The step-two handler from the example source: emits "step-two" and
returns `Above message is: ` + the previous step's message. -/
def stepTwo (_ctx : Ctx) (input : StepOneOutput) :
    List String × Except Failure StepOneOutput :=
  (["step-two"], .ok ⟨"Above message is: " ++ input.message⟩)

/-- Modelled from the spec: the ordered steps of a Workflow Job with a typed
handoff — each step's output type is the next step's input type. -/
inductive StepSeq : Type → Type → Type 1 where
  | last {α β : Type} (f : Ctx → α → List String × Except Failure β) :
      StepSeq α β
  | cons {α γ β : Type} (f : Ctx → α → List String × Except Failure γ)
      (rest : StepSeq γ β) : StepSeq α β

/-- Modelled from the spec: run the steps strictly in sequence; step 1
receives the initial input, each later step receives the previous step's
output, and a failing step stops execution with no further steps run. -/
def runSteps {α β : Type} : StepSeq α β → Ctx → α →
    List String × Except Failure β
  | .last f, ctx, a => f ctx a
  | .cons f rest, ctx, a =>
    match f ctx a with
    | (evs, .error e) => (evs, .error e)
    | (evs, .ok b) =>
      let r := runSteps rest ctx b
      (evs ++ r.1, r.2)

/-- The event payload type used by every binding in this development. -/
abbrev Payload := UserCreateEvent

/-- Modelled from the spec: the terminal operation of a composed chain is
"run the Workflow Job"; its output is captured in the run result and its
failure, if any, is what the innermost `next` call returns. -/
def jobTerminal (job : StepSeq Payload StepOneOutput) (payload : Payload) :
    Ctx → Res := fun ctx =>
  match runSteps job ctx payload with
  | (evs, .ok out) => (evs, none, some out)
  | (evs, .error f) => (evs, some f, none)

/-- The "post-user-update" Workflow Job from the example source:
step-one then step-two. -/
def postUserUpdateJob : StepSeq Payload StepOneOutput :=
  .cons stepOne (.last stepTwo)

/-- Modelled from the spec: a Service is a named grouping with its own
middleware chain and `(eventKey, WorkflowJob)` bindings. -/
structure Service where
  name : String
  mws : List Middleware
  bindings : List (String × StepSeq Payload StepOneOutput)

/-- Modelled from the spec: a Worker owns the process-wide middleware chain
and the registered Services. -/
structure Worker where
  mws : List Middleware
  services : List Service

/-- Modelled from the spec: the match set for an event key — every
`(Service, WorkflowJob)` pair whose binding key equals the event key exactly,
paired with the owning Service's middleware chain. -/
def matchesFor (w : Worker) (key : String) :
    List (List Middleware × StepSeq Payload StepOneOutput) :=
  w.services.flatMap fun s =>
    (s.bindings.filter (fun b => b.1 = key)).map fun b => (s.mws, b.2)

/-- Modelled from the spec: one match's run — compose the process-wide chain
followed by the owning Service's chain, allocate a fresh (empty)
ExecutionContext, and invoke the chain with the job run as terminal. -/
def runMatch (w : Worker) (svcMws : List Middleware)
    (job : StepSeq Payload StepOneOutput) (payload : Payload) : Res :=
  invokeChain (w.mws ++ svcMws) (jobTerminal job payload) []

/-- Modelled from the spec: event dispatch — one independent run per match. -/
def dispatch (w : Worker) (key : String) (payload : Payload) : List Res :=
  (matchesFor w key).map fun m => runMatch w m.1 m.2 payload

/-- The "test" service from the example source, carrying the service
middleware and the single binding for `user:create:middleware`. -/
def testService : Service :=
  ⟨"test", [svcMw], [("user:create:middleware", postUserUpdateJob)]⟩

/-- The worker configured by the example source: two process-wide
middlewares, one service. -/
def scenarioWorker : Worker := ⟨[mw1, mw2], [testService]⟩

/-- The event payload pushed by the example source. -/
def scenarioPayload : Payload := ⟨"echo-test", "1234", [("test", "test")]⟩

/-- Modelled from the spec: the observable behaviour of a registered
middleware — it emits its marker on the events channel, and either calls
`next` once with its context additions prepended and passes the result
through, or swallows the call without invoking `next` (the spec's
intentional gating escape hatch, returning no error). -/
structure MwSpec where
  marker : String
  adds : List (String × GoVal)
  callsNext : Bool
deriving DecidableEq, Repr

/-- Interpret an `MwSpec` as a middleware function. -/
def MwSpec.interp (m : MwSpec) : Middleware := fun ctx next =>
  if m.callsNext then
    let r := next (m.adds ++ ctx)
    (m.marker :: r.1, r.2.1, r.2.2)
  else
    ([m.marker], none, none)

/-- A canonical terminal operation that emits a recognisable marker, used to
observe how often the composed chain reaches the terminal. -/
def termOp : Ctx → Res := fun _ => (["terminal-op"], none, some ⟨"done"⟩)

/-- Render what `ctx.Value(k)` returned, for observation through the events
channel. -/
def showVal : Option GoVal → String
  | some (.str s) => s
  | some .other => "non-string"
  | none => "missing"

/-- A terminal operation that observes the context entry for `k` by emitting
what `ctx.Value(k)` returns. -/
def probe (k : String) : Ctx → Res := fun ctx =>
  ([showVal (ctxValue ctx k)], none, none)

/-- A three-middleware chain whose second member swallows the call, used to
exercise the gating escape hatch. -/
def gateDemo : List MwSpec :=
  [⟨"outer", [("k1", .str "v1")], true⟩, ⟨"gate", [], false⟩,
   ⟨"inner", [], true⟩]

/-- A step that fails immediately with an ordinary error, used to exercise
failure short-circuiting. -/
def failStep : Ctx → Payload → List String × Except Failure StepOneOutput :=
  fun _ _ => (["step-fail"], .error (.err "boom"))

/-- A two-step job whose first step fails. -/
def failJob : StepSeq Payload StepOneOutput := .cons failStep (.last stepTwo)

/-- A single inner middleware that injects an unrelated key, used to observe
that outer additions stay visible below it. -/
def innerDemo : List MwSpec := [⟨"inner", [("otherkey", .str "x")], true⟩]

/-- A demo service bound to key "k1" running the example job. -/
def svcA : Service := ⟨"A", [svcMw], [("k1", postUserUpdateJob)]⟩

/-- A second demo service bound to the same key "k1", running a failing
job. -/
def svcB : Service := ⟨"B", [], [("k1", failJob)]⟩

/-- Modelled from the spec: the Worker lifecycle states
Created → Running → ShuttingDown → Stopped. -/
inductive WorkerState where
  | created
  | running
  | shuttingDown
  | stopped
deriving DecidableEq, Repr

/-- An input observed by the Worker's run loop: an event push, or the
cancellation signal firing. -/
inductive WInput where
  | push (key : String) (payload : Payload)
  | signal

/-- Modelled from the spec: how the Worker reacts to one input — while
Running, a push dispatches runs for every match and a signal moves to
ShuttingDown; in any other state no new run is initiated. -/
def lifecycleStep (w : Worker) (st : WorkerState) (i : WInput) :
    WorkerState × List Res :=
  match st, i with
  | .running, .push k p => (.running, dispatch w k p)
  | .running, .signal => (.shuttingDown, [])
  | s, _ => (s, [])

/-- Modelled from the spec: the runs initiated while processing a sequence of
inputs from a given state; each initiated run is recorded as its complete
result (runs are cooperative and never aborted mid-step). -/
def traceRuns (w : Worker) : WorkerState → List WInput → List Res
  | _, [] => []
  | st, i :: rest =>
    let s := lifecycleStep w st i
    s.2 ++ traceRuns w s.1 rest

/-- The userinfo claims decoded from the identity provider's response
(customUserInfo in the source). -/
structure CustomUserInfo where
  sub : String
  email : String
  emailVerified : Bool
  name : String
deriving DecidableEq, Repr

/-- An oauth2 token as seen by the handlers; `valid` is the result of the
external library's `token.Valid()`. -/
structure OAuthToken where
  accessToken : String
  refreshToken : String
  expiry : Nat
  valid : Bool
deriving DecidableEq, Repr

/-- The persisted user row (db.UserModel), reduced to the fields the
handlers read. -/
structure UserModel where
  id : String
  email : String
deriving DecidableEq, Repr

/-- repository.OAuthOpts as built by upsertCustomUserFromToken. -/
structure OAuthOpts where
  provider : String
  providerUserId : String
  accessToken : String
  refreshToken : Option String
  expiresAt : Option Nat
deriving DecidableEq, Repr

/-- repository.UpdateUserOpts, reduced to the fields the handler sets. -/
structure UpdateUserOpts where
  emailVerified : Option Bool
  name : Option String
  oauth : OAuthOpts
deriving DecidableEq, Repr

/-- repository.CreateUserOpts, reduced to the fields the handler sets. -/
structure CreateUserOpts where
  email : String
  emailVerified : Option Bool
  name : Option String
  oauth : OAuthOpts
deriving DecidableEq, Repr

/-- The outcome of GetUserByEmail: found, db.ErrNotFound, or another error. -/
inductive GetUserErr where
  | notFound
  | other (msg : String)
deriving DecidableEq, Repr

/-- An error from upsertCustomUserFromToken; ErrNotInRestrictedDomain is
distinguished because the callback matches on it with errors.Is. -/
inductive UpsertErr where
  | notInRestrictedDomain
  | other (msg : String)
deriving DecidableEq, Repr

/-- A write issued to the user repository: the opts passed to UpdateUser or
CreateUser. -/
inductive WriteOp where
  | update (userId : String) (opts : UpdateUserOpts)
  | create (opts : CreateUserOpts)
deriving DecidableEq, Repr

/-- The OAuth options carried by a repository write. -/
def WriteOp.oauth : WriteOp → OAuthOpts
  | .update _ opts => opts.oauth
  | .create opts => opts.oauth

/-- The external collaborators of upsertCustomUserFromToken: userinfo fetch,
domain restriction check, the encryption service, and the user repository. -/
structure UpsertEnv where
  userInfo : Except String CustomUserInfo
  restriction : String → Option UpsertErr
  encrypt : String → String → Except String String
  getUserByEmail : String → Except GetUserErr UserModel
  updateUser : String → UpdateUserOpts → Except String UserModel
  createUser : CreateUserOpts → Except String UserModel

/-- upsertCustomUserFromToken from the source: fetch userinfo, check the
domain restriction, encrypt both tokens (failing fast if either encryption
fails), then update the user found by email or create a new one; the list
records every write issued to the repository. -/
def upsertCustomUserFromToken (env : UpsertEnv) (tok : OAuthToken) :
    List WriteOp × Except UpsertErr UserModel :=
  match env.userInfo with
  | .error e => ([], .error (.other e))
  | .ok cInfo =>
    match env.restriction cInfo.email with
    | some e => ([], .error e)
    | none =>
      match env.encrypt tok.accessToken "custom_access_token" with
      | .error e =>
          ([], .error (.other ("failed to encrypt access token: " ++ e)))
      | .ok accessTokenEncrypted =>
        match env.encrypt tok.refreshToken "custom_refresh_token" with
        | .error e =>
            ([], .error (.other ("failed to encrypt refresh token: " ++ e)))
        | .ok refreshTokenEncrypted =>
          let oauthOpts : OAuthOpts :=
            ⟨"custom", cInfo.sub, accessTokenEncrypted,
             some refreshTokenEncrypted, some tok.expiry⟩
          match env.getUserByEmail cInfo.email with
          | .ok user =>
            let opts : UpdateUserOpts :=
              ⟨some cInfo.emailVerified, some cInfo.name, oauthOpts⟩
            match env.updateUser user.id opts with
            | .ok u => ([.update user.id opts], .ok u)
            | .error e =>
                ([.update user.id opts],
                 .error (.other ("failed to update user: " ++ e)))
          | .error .notFound =>
            let opts : CreateUserOpts :=
              ⟨cInfo.email, some cInfo.emailVerified, some cInfo.name,
               oauthOpts⟩
            match env.createUser opts with
            | .ok u => ([.create opts], .ok u)
            | .error e =>
                ([.create opts],
                 .error (.other ("failed to create user: " ++ e)))
          | .error (.other e) =>
              ([], .error (.other ("failed to get user: " ++ e)))

/-- The external collaborators of the OAuth callback: OAuth-state validation,
the token exchange, the upsert result, session save, and the configured
server URL. -/
structure CallbackEnv where
  stateValid : Bool
  stateErr : Option String
  code : String
  exchange : String → Except String OAuthToken
  upsert : Except UpsertErr UserModel
  saveAuthenticated : UserModel → Option String
  serverURL : String

/-- The handler's response: a redirect produced by GetRedirectWithError
carrying a user-facing message, or the 302 success response. -/
inductive CallbackResponse where
  | redirectWithError (userMsg : String)
  | found302 (location : String)
deriving DecidableEq, Repr

/-- UserUpdateCustomOauthCallback from the source: every failure path
returns a GetRedirectWithError redirect; success returns a 302 whose
Location is the configured server URL. -/
def userUpdateCustomOauthCallback (env : CallbackEnv) : CallbackResponse :=
  if env.stateErr.isSome || !env.stateValid then
    .redirectWithError
      "Could not log in. Please try again and make sure cookies are enabled."
  else
    match env.exchange env.code with
    | .error _ => .redirectWithError "Forbidden"
    | .ok token =>
      if !token.valid then .redirectWithError "Forbidden"
      else
        match env.upsert with
        | .error .notInRestrictedDomain =>
            .redirectWithError "Email is not in the restricted domain group."
        | .error (.other _) => .redirectWithError "Internal error."
        | .ok user =>
          match env.saveAuthenticated user with
          | some _ => .redirectWithError "Internal error."
          | none => .found302 env.serverURL

/-- A fully successful upsert environment, used to evaluate the handlers at
a concrete input. -/
def demoUpsertEnv : UpsertEnv where
  userInfo := .ok ⟨"sub-1", "a@b.c", true, "Alice"⟩
  restriction := fun _ => none
  encrypt := fun s dataId => .ok ("enc(" ++ dataId ++ ":" ++ s ++ ")")
  getUserByEmail := fun _ => .error .notFound
  updateUser := fun uid _ => .ok ⟨uid, "a@b.c"⟩
  createUser := fun o => .ok ⟨"u1", o.email⟩

/-- A concrete token used to evaluate the handlers. -/
def demoToken : OAuthToken := ⟨"at-plain", "rt-plain", 99, true⟩

/-- A fully successful callback environment. -/
def demoCallbackEnv : CallbackEnv where
  stateValid := true
  stateErr := none
  code := "code-1"
  exchange := fun _ => .ok demoToken
  upsert := .ok ⟨"u1", "a@b.c"⟩
  saveAuthenticated := fun _ => none
  serverURL := "https://app.example.com"

end Hatchet

namespace Hatchet

/-- Claim C1: pushing `user:create:middleware` with username "echo-test"
produces exactly one run whose events-channel writes are, in order,
["1st-middleware","2nd-middleware","svc-middleware","step-one","testvalue",
"svcvalue","step-two"], with no failure and final output
`Above message is: Username is: echo-test`. -/
theorem scenario_run_events_and_output :
    dispatch scenarioWorker "user:create:middleware" scenarioPayload =
      [(["1st-middleware", "2nd-middleware", "svc-middleware", "step-one",
         "testvalue", "svcvalue", "step-two"],
        none,
        some ⟨"Above message is: Username is: echo-test"⟩)] := by
  rfl

theorem runSteps_cons_ok {α γ β : Type}
    (f : Ctx → α → List String × Except Failure γ) (rest : StepSeq γ β)
    (ctx : Ctx) (a : α) (b : γ) (h : (f ctx a).2 = Except.ok b) :
    runSteps (StepSeq.cons f rest) ctx a
      = ((f ctx a).1 ++ (runSteps rest ctx b).1, (runSteps rest ctx b).2) := by
  rcases hfa : f ctx a with ⟨evs, r⟩
  rw [hfa] at h
  simp only at h
  subst h
  simp [runSteps, hfa]

theorem runSteps_cons_error {α γ β : Type}
    (f : Ctx → α → List String × Except Failure γ) (rest : StepSeq γ β)
    (ctx : Ctx) (a : α) (e : Failure) (h : (f ctx a).2 = Except.error e) :
    runSteps (StepSeq.cons f rest) ctx a = ((f ctx a).1, Except.error e) := by
  rcases hfa : f ctx a with ⟨evs, r⟩
  rw [hfa] at h
  simp only at h
  subst h
  simp [runSteps, hfa]

/-- Claim C2: for any sequence of registered middlewares (each of which
either passes the call on once or swallows it), invoking the composed chain
emits the middleware markers in registration order, exactly once each, up to
and including the first middleware that does not call `next`; the terminal
operation runs exactly once when every middleware calls `next` and zero
times otherwise — hence at most once. -/
theorem use_order_and_terminal_at_most_once (ms : List MwSpec) (ctx : Ctx)
    (hm : ∀ m ∈ ms, m.marker ≠ "terminal-op") :
    (invokeChain (ms.map MwSpec.interp) termOp ctx).1
      = (ms.takeWhile (fun m => m.callsNext)).map MwSpec.marker
        ++ (match ms.dropWhile (fun m => m.callsNext) with
            | [] => ["terminal-op"]
            | gate :: _ => [gate.marker])
    ∧ (invokeChain (ms.map MwSpec.interp) termOp ctx).1.count "terminal-op"
        = (if ms.dropWhile (fun m => m.callsNext) = [] then 1 else 0) := by
  induction ms generalizing ctx with
  | nil => simp [invokeChain, termOp]
  | cons m rest ih =>
    have hm' : ∀ x ∈ rest, x.marker ≠ "terminal-op" :=
      fun x hx => hm x (List.mem_cons_of_mem _ hx)
    have hmm : m.marker ≠ "terminal-op" := hm m (List.mem_cons_self _ _)
    cases hc : m.callsNext with
    | true =>
      obtain ⟨ih1, ih2⟩ := ih (m.adds ++ ctx) hm'
      constructor
      · simp [invokeChain, MwSpec.interp, hc, List.takeWhile_cons,
          List.dropWhile_cons, ih1]
      · simp [invokeChain, MwSpec.interp, hc, List.dropWhile_cons,
          List.count_cons, hmm, ih2]
    | false =>
      constructor
      · simp [invokeChain, MwSpec.interp, hc, List.takeWhile_cons,
          List.dropWhile_cons]
      · simp [invokeChain, MwSpec.interp, hc, List.dropWhile_cons,
          List.count_cons, hmm]

theorem use_order_and_terminal_at_most_once_witness :
    (∀ m ∈ gateDemo, m.marker ≠ "terminal-op") ∧
    ((invokeChain (gateDemo.map MwSpec.interp) termOp []).1
      = (gateDemo.takeWhile (fun m => m.callsNext)).map MwSpec.marker
        ++ (match gateDemo.dropWhile (fun m => m.callsNext) with
            | [] => ["terminal-op"]
            | gate :: _ => [gate.marker])
    ∧ (invokeChain (gateDemo.map MwSpec.interp) termOp []).1.count
        "terminal-op"
        = (if gateDemo.dropWhile (fun m => m.callsNext) = [] then 1
           else 0)) :=
  ⟨by decide, use_order_and_terminal_at_most_once gateDemo [] (by decide)⟩

/-- Claim C3: the runtime hands the steps' results off in sequence — for the
registered job, step-one's output on any context carrying string values for
`testkey` and `svckey` is `Username is: <username>`, the job's run is
step-one's events followed by step-two applied to exactly that output, and
the final output is `Above message is: Username is: <username>`. -/
theorem typed_handoff (ctx : Ctx) (p : Payload) (tv sv : String)
    (h1 : ctxValue ctx "testkey" = some (GoVal.str tv))
    (h2 : ctxValue ctx "svckey" = some (GoVal.str sv)) :
    (stepOne ctx p).2 = Except.ok ⟨"Username is: " ++ p.username⟩ ∧
    runSteps postUserUpdateJob ctx p
      = ((stepOne ctx p).1
          ++ (stepTwo ctx ⟨"Username is: " ++ p.username⟩).1,
         (stepTwo ctx ⟨"Username is: " ++ p.username⟩).2) ∧
    runSteps postUserUpdateJob ctx p
      = (["step-one", tv, sv, "step-two"],
         Except.ok ⟨"Above message is: " ++ ("Username is: " ++ p.username)⟩)
    := by
  have hs1 : stepOne ctx p
      = (["step-one", tv, sv], .ok ⟨"Username is: " ++ p.username⟩) := by
    simp [stepOne, h1, h2, assertString]
  refine ⟨by rw [hs1], ?_, ?_⟩
  · exact runSteps_cons_ok stepOne (.last stepTwo) ctx p _ (by rw [hs1])
  · simp [postUserUpdateJob, runSteps, hs1, stepTwo]

theorem typed_handoff_witness :
    ctxValue [("testkey", GoVal.str "tv0"), ("svckey", GoVal.str "sv0")]
        "testkey" = some (GoVal.str "tv0") ∧
    ctxValue [("testkey", GoVal.str "tv0"), ("svckey", GoVal.str "sv0")]
        "svckey" = some (GoVal.str "sv0") ∧
    runSteps postUserUpdateJob
        [("testkey", GoVal.str "tv0"), ("svckey", GoVal.str "sv0")]
        scenarioPayload
      = (["step-one", "tv0", "sv0", "step-two"],
         Except.ok ⟨"Above message is: " ++ ("Username is: " ++ "echo-test")⟩)
    :=
  ⟨by decide, by decide,
   (typed_handoff [("testkey", GoVal.str "tv0"), ("svckey", GoVal.str "sv0")]
      scenarioPayload "tv0" "sv0" (by decide) (by decide)).2.2⟩

/-- Claim C4: a failing step stops the run with no later step executing; a
failing terminal returns its failure through the job terminal and through
every enclosing pass-through middleware unchanged; and the timing middleware
registered second returns the error from `next` unmodified. -/
theorem error_propagation :
    (∀ {α γ β : Type} (f : Ctx → α → List String × Except Failure γ)
        (rest : StepSeq γ β) (ctx : Ctx) (a : α) (e : Failure),
        (f ctx a).2 = Except.error e →
        runSteps (StepSeq.cons f rest) ctx a
          = ((f ctx a).1, Except.error e)) ∧
    (∀ (job : StepSeq Payload StepOneOutput) (p : Payload) (c : Ctx)
        (e : Failure),
        (runSteps job c p).2 = Except.error e →
        jobTerminal job p c = ((runSteps job c p).1, some e, none)) ∧
    (∀ (ms : List MwSpec) (term : Ctx → Res) (ctx : Ctx) (e : Failure),
        (∀ m ∈ ms, m.callsNext = true) →
        (∀ c, (term c).2.1 = some e) →
        (invokeChain (ms.map MwSpec.interp) term ctx).2.1 = some e) ∧
    (∀ (ctx : Ctx) (next : Ctx → Res), (mw2 ctx next).2.1 = (next ctx).2.1)
    := by
  refine ⟨?_, ?_, ?_, ?_⟩
  · intro α γ β f rest ctx a e h
    exact runSteps_cons_error f rest ctx a e h
  · intro job p c e h
    rcases hr : runSteps job c p with ⟨evs, r⟩
    rw [hr] at h
    simp only at h
    subst h
    simp [jobTerminal, hr]
  · intro ms term ctx e hnext hterm
    induction ms generalizing ctx with
    | nil => simpa [invokeChain] using hterm ctx
    | cons m rest ih =>
      have hmn : m.callsNext = true := hnext m (List.mem_cons_self _ _)
      have hrest : ∀ x ∈ rest, x.callsNext = true :=
        fun x hx => hnext x (List.mem_cons_of_mem _ hx)
      simp [invokeChain, MwSpec.interp, hmn, ih (m.adds ++ ctx) hrest]
  · intro ctx next
    rfl

theorem error_propagation_witness :
    ((failStep [] scenarioPayload).2 = Except.error (Failure.err "boom")) ∧
    runSteps (StepSeq.cons failStep (StepSeq.last stepTwo)) [] scenarioPayload
      = ((failStep [] scenarioPayload).1, Except.error (Failure.err "boom")) ∧
    ((runSteps failJob [] scenarioPayload).2
        = Except.error (Failure.err "boom")) ∧
    jobTerminal failJob scenarioPayload []
      = ((runSteps failJob [] scenarioPayload).1,
         some (Failure.err "boom"), none) ∧
    (invokeChain (List.map MwSpec.interp [⟨"outer", [], true⟩])
        (jobTerminal failJob scenarioPayload) []).2.1
      = some (Failure.err "boom") ∧
    (mw2 [] (probe "k")).2.1 = (probe "k" []).2.1 :=
  ⟨rfl,
   error_propagation.1 failStep (.last stepTwo) [] scenarioPayload
     (Failure.err "boom") rfl,
   rfl,
   error_propagation.2.1 failJob scenarioPayload [] (Failure.err "boom") rfl,
   error_propagation.2.2.1 [MwSpec.mk "outer" [] true]
     (jobTerminal failJob scenarioPayload) [] (Failure.err "boom")
     (by simp) (fun c => rfl),
   error_propagation.2.2.2 [] (probe "k")⟩

theorem ctxValue_append_of_not_mem (adds : List (String × GoVal)) (c : Ctx)
    (k : String) (h : k ∉ adds.map Prod.fst) :
    ctxValue (adds ++ c) k = ctxValue c k := by
  induction adds with
  | nil => rfl
  | cons a rest ih =>
    simp only [List.map_cons, List.mem_cons, not_or] at h
    have ha : ¬ (a.1 = k) := fun hh => h.1 hh.symm
    simp only [List.cons_append, ctxValue, List.find?_cons]
    rw [decide_eq_false ha]
    exact ih h.2

theorem ctxValue_cons_self (k : String) (v : GoVal) (c : Ctx) :
    ctxValue ((k, v) :: c) k = some v := by
  simp [ctxValue, List.find?_cons]

theorem probe_sees_outer (k : String) (v : GoVal) (ms : List MwSpec)
    (ctx : Ctx) (hctx : ctxValue ctx k = some v)
    (hms : ∀ m ∈ ms, m.callsNext = true ∧ k ∉ m.adds.map Prod.fst) :
    (invokeChain (ms.map MwSpec.interp) (probe k) ctx).1
      = ms.map MwSpec.marker ++ [showVal (some v)] := by
  induction ms generalizing ctx with
  | nil => simp [invokeChain, probe, hctx]
  | cons m rest ih =>
    obtain ⟨hcn, hk⟩ := hms m (List.mem_cons_self _ _)
    have hrest : ∀ x ∈ rest, x.callsNext = true ∧ k ∉ x.adds.map Prod.fst :=
      fun x hx => hms x (List.mem_cons_of_mem _ hx)
    have hctx' : ctxValue (m.adds ++ ctx) k = some v := by
      rw [ctxValue_append_of_not_mem m.adds ctx k hk]
      exact hctx
    simp [invokeChain, MwSpec.interp, hcn, ih (m.adds ++ ctx) hctx' hrest]

/-- Claim C5: a context entry added by an outer middleware is visible to
everything downstream of it in the same run — a chain of inner pass-through
middlewares that do not re-add the key delivers the outer value to the
terminal observer — and a run dispatched through one Service is computed
exactly as if the other Service did not exist, so entries added by another
Service's middleware are never visible in it. -/
theorem context_visibility_and_isolation :
    (∀ (mk k : String) (v : GoVal) (ms : List MwSpec) (ctx : Ctx),
        (∀ m ∈ ms, m.callsNext = true ∧ k ∉ m.adds.map Prod.fst) →
        (invokeChain
            (MwSpec.interp ⟨mk, [(k, v)], true⟩ :: ms.map MwSpec.interp)
            (probe k) ctx).1
          = mk :: (ms.map MwSpec.marker ++ [showVal (some v)])) ∧
    (∀ (wm : List Middleware) (A B : Service) (key : String) (p : Payload),
        dispatch ⟨wm, [A, B]⟩ key p
          = dispatch ⟨wm, [A]⟩ key p ++ dispatch ⟨wm, [B]⟩ key p) := by
  constructor
  · intro mk k v ms ctx hms
    have hctx : ctxValue ((k, v) :: ctx) k = some v := ctxValue_cons_self k v ctx
    simp [invokeChain, MwSpec.interp, withValue,
      probe_sees_outer k v ms ((k, v) :: ctx) hctx hms]
  · intro wm A B key p
    simp [dispatch, matchesFor, runMatch]

theorem context_visibility_and_isolation_witness :
    (∀ m ∈ innerDemo,
        m.callsNext = true ∧ "svckey" ∉ m.adds.map Prod.fst) ∧
    (invokeChain
        (MwSpec.interp ⟨"svc-mw", [("svckey", GoVal.str "svcvalue")], true⟩
          :: innerDemo.map MwSpec.interp)
        (probe "svckey") []).1
      = "svc-mw" :: (innerDemo.map MwSpec.marker
          ++ [showVal (some (GoVal.str "svcvalue"))]) ∧
    dispatch ⟨[mw1], [svcA, svcB]⟩ "k1" scenarioPayload
      = dispatch ⟨[mw1], [svcA]⟩ "k1" scenarioPayload
        ++ dispatch ⟨[mw1], [svcB]⟩ "k1" scenarioPayload :=
  ⟨by decide,
   context_visibility_and_isolation.1 "svc-mw" "svckey"
     (GoVal.str "svcvalue") innerDemo [] (by decide),
   context_visibility_and_isolation.2 [mw1] svcA svcB "k1" scenarioPayload⟩

/-- Claim C6: when one event is pushed once and two Services are both bound
to its key, dispatch yields exactly one run per (Service, WorkflowJob) pair,
each invoked on a fresh empty ExecutionContext with its own composed chain;
each run's value is an expression in which the other Service does not occur,
so an error in one run cannot change the other run's outcome. -/
theorem fanout_independent_runs (wm mwsA mwsB : List Middleware)
    (jobA jobB : StepSeq Payload StepOneOutput) (key : String) (p : Payload) :
    dispatch ⟨wm, [⟨"A", mwsA, [(key, jobA)]⟩, ⟨"B", mwsB, [(key, jobB)]⟩]⟩
        key p
      = [invokeChain (wm ++ mwsA) (jobTerminal jobA p) [],
         invokeChain (wm ++ mwsB) (jobTerminal jobB p) []] := by
  simp [dispatch, matchesFor, runMatch]

theorem traceRuns_shuttingDown (w : Worker) (l : List WInput) :
    traceRuns w WorkerState.shuttingDown l = [] := by
  induction l with
  | nil => rfl
  | cons i rest ih => cases i <;> simp [traceRuns, lifecycleStep, ih]

theorem traceRuns_append_signal (w : Worker) (pre post : List WInput) :
    traceRuns w WorkerState.running (pre ++ WInput.signal :: post)
      = traceRuns w WorkerState.running pre := by
  induction pre with
  | nil => simp [traceRuns, lifecycleStep, traceRuns_shuttingDown]
  | cons i rest ih =>
    cases i with
    | push k p => simp [traceRuns, lifecycleStep, ih]
    | signal => simp [traceRuns, lifecycleStep, traceRuns_shuttingDown]

/-- Claim C7: once the cancellation signal has fired, no new run is
initiated for any subsequently pushed event — the runs of a trace with a
signal are exactly the runs of its prefix before the signal, each recorded
as its complete, unaborted result, and appending a further push after the
signal changes nothing. -/
theorem shutdown_gates_new_runs (w : Worker) (pre post : List WInput) :
    traceRuns w WorkerState.running (pre ++ WInput.signal :: post)
      = traceRuns w WorkerState.running pre ∧
    ∀ (k : String) (p : Payload),
      traceRuns w WorkerState.running
          (pre ++ WInput.signal :: WInput.push k p :: post)
        = traceRuns w WorkerState.running pre := by
  exact ⟨traceRuns_append_signal w pre post,
    fun k p => traceRuns_append_signal w pre (WInput.push k p :: post)⟩

/-- Claim C10: under the precondition that the process-wide middleware and
the service middleware injected string values for `testkey` and `svckey`,
the unchecked type assertions in step-one cannot reach their panic branch:
step-one returns a non-error result for every input. -/
theorem stepOne_assertions_safe (ctx : Ctx) (p : Payload) (tv sv : String)
    (h1 : ctxValue ctx "testkey" = some (GoVal.str tv))
    (h2 : ctxValue ctx "svckey" = some (GoVal.str sv)) :
    stepOne ctx p
      = (["step-one", tv, sv], Except.ok ⟨"Username is: " ++ p.username⟩) ∧
    ∀ msg, (stepOne ctx p).2 ≠ Except.error (Failure.panic msg) := by
  have hs : stepOne ctx p
      = (["step-one", tv, sv], Except.ok ⟨"Username is: " ++ p.username⟩) := by
    simp [stepOne, assertString, h1, h2]
  exact ⟨hs, fun msg => by rw [hs]; simp⟩

theorem stepOne_assertions_safe_witness :
    ctxValue [("svckey", GoVal.str "s1"), ("testkey", GoVal.str "t1")]
        "testkey" = some (GoVal.str "t1") ∧
    ctxValue [("svckey", GoVal.str "s1"), ("testkey", GoVal.str "t1")]
        "svckey" = some (GoVal.str "s1") ∧
    stepOne [("svckey", GoVal.str "s1"), ("testkey", GoVal.str "t1")]
        ⟨"u-demo", "9", []⟩
      = (["step-one", "t1", "s1"], Except.ok ⟨"Username is: " ++ "u-demo"⟩) :=
  ⟨by decide, by decide,
   (stepOne_assertions_safe
      [("svckey", GoVal.str "s1"), ("testkey", GoVal.str "t1")]
      ⟨"u-demo", "9", []⟩ "t1" "s1" (by decide) (by decide)).1⟩

theorem upsert_writes_encrypted (env : UpsertEnv) (tok : OAuthToken)
    (w : WriteOp) (hw : w ∈ (upsertCustomUserFromToken env tok).1) :
    ∃ ae re,
      env.encrypt tok.accessToken "custom_access_token" = Except.ok ae ∧
      env.encrypt tok.refreshToken "custom_refresh_token" = Except.ok re ∧
      (WriteOp.oauth w).accessToken = ae ∧
      (WriteOp.oauth w).refreshToken = some re ∧
      (WriteOp.oauth w).provider = "custom" := by
  cases hui : env.userInfo with
  | error e0 => simp [upsertCustomUserFromToken, hui] at hw
  | ok cInfo =>
    cases hres : env.restriction cInfo.email with
    | some er => simp [upsertCustomUserFromToken, hui, hres] at hw
    | none =>
      cases henc1 : env.encrypt tok.accessToken "custom_access_token" with
      | error e1 => simp [upsertCustomUserFromToken, hui, hres, henc1] at hw
      | ok ae =>
        cases henc2 : env.encrypt tok.refreshToken "custom_refresh_token" with
        | error e2 =>
          simp [upsertCustomUserFromToken, hui, hres, henc1, henc2] at hw
        | ok re =>
          refine ⟨ae, re, rfl, rfl, ?_⟩
          cases hget : env.getUserByEmail cInfo.email with
          | ok user =>
            cases hupd : env.updateUser user.id
                ⟨some cInfo.emailVerified, some cInfo.name,
                 ⟨"custom", cInfo.sub, ae, some re, some tok.expiry⟩⟩ with
            | ok u =>
              simp [upsertCustomUserFromToken, hui, hres, henc1, henc2,
                hget, hupd] at hw
              subst hw
              simp [WriteOp.oauth]
            | error e3 =>
              simp [upsertCustomUserFromToken, hui, hres, henc1, henc2,
                hget, hupd] at hw
              subst hw
              simp [WriteOp.oauth]
          | error ge =>
            cases ge with
            | notFound =>
              cases hcr : env.createUser
                  ⟨cInfo.email, some cInfo.emailVerified, some cInfo.name,
                   ⟨"custom", cInfo.sub, ae, some re, some tok.expiry⟩⟩ with
              | ok u =>
                simp [upsertCustomUserFromToken, hui, hres, henc1, henc2,
                  hget, hcr] at hw
                subst hw
                simp [WriteOp.oauth]
              | error e4 =>
                simp [upsertCustomUserFromToken, hui, hres, henc1, henc2,
                  hget, hcr] at hw
                subst hw
                simp [WriteOp.oauth]
            | other msg =>
              simp [upsertCustomUserFromToken, hui, hres, henc1, henc2,
                hget] at hw

theorem upsert_access_encrypt_failure (env : UpsertEnv) (tok : OAuthToken)
    (e : String)
    (he : env.encrypt tok.accessToken "custom_access_token"
        = Except.error e) :
    (upsertCustomUserFromToken env tok).1 = [] ∧
    ∃ m, (upsertCustomUserFromToken env tok).2 = Except.error m := by
  cases hui : env.userInfo with
  | error e0 =>
    exact ⟨by simp [upsertCustomUserFromToken, hui],
      ⟨.other e0, by simp [upsertCustomUserFromToken, hui]⟩⟩
  | ok cInfo =>
    cases hres : env.restriction cInfo.email with
    | some er =>
      exact ⟨by simp [upsertCustomUserFromToken, hui, hres],
        ⟨er, by simp [upsertCustomUserFromToken, hui, hres]⟩⟩
    | none =>
      exact ⟨by simp [upsertCustomUserFromToken, hui, hres, he],
        ⟨.other ("failed to encrypt access token: " ++ e),
         by simp [upsertCustomUserFromToken, hui, hres, he]⟩⟩

theorem upsert_refresh_encrypt_failure (env : UpsertEnv) (tok : OAuthToken)
    (e : String)
    (he : env.encrypt tok.refreshToken "custom_refresh_token"
        = Except.error e) :
    (upsertCustomUserFromToken env tok).1 = [] ∧
    ∃ m, (upsertCustomUserFromToken env tok).2 = Except.error m := by
  cases hui : env.userInfo with
  | error e0 =>
    exact ⟨by simp [upsertCustomUserFromToken, hui],
      ⟨.other e0, by simp [upsertCustomUserFromToken, hui]⟩⟩
  | ok cInfo =>
    cases hres : env.restriction cInfo.email with
    | some er =>
      exact ⟨by simp [upsertCustomUserFromToken, hui, hres],
        ⟨er, by simp [upsertCustomUserFromToken, hui, hres]⟩⟩
    | none =>
      cases henc1 : env.encrypt tok.accessToken "custom_access_token" with
      | error e1 =>
        exact ⟨by simp [upsertCustomUserFromToken, hui, hres, henc1],
          ⟨.other ("failed to encrypt access token: " ++ e1),
           by simp [upsertCustomUserFromToken, hui, hres, henc1]⟩⟩
      | ok ae =>
        exact ⟨by simp [upsertCustomUserFromToken, hui, hres, henc1, he],
          ⟨.other ("failed to encrypt refresh token: " ++ e),
           by simp [upsertCustomUserFromToken, hui, hres, henc1, he]⟩⟩

/-- Claim C9: every OAuth options record persisted via UpdateUser or
CreateUser carries exactly the encryption service's outputs for the access
and refresh tokens (never the plaintext strings as such), and if either
encryption call fails the function returns an error with no repository write
issued. -/
theorem upsert_persists_only_encrypted_tokens (env : UpsertEnv)
    (tok : OAuthToken) :
    (∀ w ∈ (upsertCustomUserFromToken env tok).1,
        ∃ ae re,
          env.encrypt tok.accessToken "custom_access_token" = Except.ok ae ∧
          env.encrypt tok.refreshToken "custom_refresh_token"
            = Except.ok re ∧
          (WriteOp.oauth w).accessToken = ae ∧
          (WriteOp.oauth w).refreshToken = some re ∧
          (WriteOp.oauth w).provider = "custom") ∧
    (∀ e, env.encrypt tok.accessToken "custom_access_token"
          = Except.error e →
        (upsertCustomUserFromToken env tok).1 = [] ∧
        ∃ m, (upsertCustomUserFromToken env tok).2 = Except.error m) ∧
    (∀ e, env.encrypt tok.refreshToken "custom_refresh_token"
          = Except.error e →
        (upsertCustomUserFromToken env tok).1 = [] ∧
        ∃ m, (upsertCustomUserFromToken env tok).2 = Except.error m) :=
  ⟨fun w hw => upsert_writes_encrypted env tok w hw,
   fun e he => upsert_access_encrypt_failure env tok e he,
   fun e he => upsert_refresh_encrypt_failure env tok e he⟩

theorem upsert_persists_only_encrypted_tokens_witness :
    (upsertCustomUserFromToken demoUpsertEnv demoToken).1
      = [WriteOp.create
          ⟨"a@b.c", some true, some "Alice",
           ⟨"custom", "sub-1", "enc(custom_access_token:at-plain)",
            some "enc(custom_refresh_token:rt-plain)", some 99⟩⟩] ∧
    (∀ w ∈ (upsertCustomUserFromToken demoUpsertEnv demoToken).1,
        ∃ ae re,
          demoUpsertEnv.encrypt demoToken.accessToken "custom_access_token"
            = Except.ok ae ∧
          demoUpsertEnv.encrypt demoToken.refreshToken "custom_refresh_token"
            = Except.ok re ∧
          (WriteOp.oauth w).accessToken = ae ∧
          (WriteOp.oauth w).refreshToken = some re ∧
          (WriteOp.oauth w).provider = "custom") :=
  ⟨by decide,
   (upsert_persists_only_encrypted_tokens demoUpsertEnv demoToken).1⟩

/-- Claim C8: the custom OAuth callback never returns a raw error body — its
result is either a GetRedirectWithError redirect or the 302 success
response, and any 302 it returns points at the configured server URL and
only arises when state validation, the token exchange, token validity, the
upsert and the session save all succeeded. -/
theorem callback_never_raw_error (env : CallbackEnv) :
    ((∃ msg, userUpdateCustomOauthCallback env
        = CallbackResponse.redirectWithError msg) ∨
      userUpdateCustomOauthCallback env
        = CallbackResponse.found302 env.serverURL) ∧
    (∀ loc, userUpdateCustomOauthCallback env
          = CallbackResponse.found302 loc →
        loc = env.serverURL ∧ env.stateErr = none ∧
        env.stateValid = true ∧
        (∃ t, env.exchange env.code = Except.ok t ∧ t.valid = true) ∧
        (∃ u, env.upsert = Except.ok u ∧ env.saveAuthenticated u = none))
    := by
  cases h0 : (env.stateErr.isSome || !env.stateValid) with
  | true =>
    constructor
    · exact Or.inl
        ⟨"Could not log in. Please try again and make sure cookies are enabled.",
         by simp [userUpdateCustomOauthCallback, h0]⟩
    · intro loc hl
      simp [userUpdateCustomOauthCallback, h0] at hl
  | false =>
    have hnone : env.stateErr = none := by
      rcases Bool.or_eq_false_iff.mp h0 with ⟨h1, _⟩
      cases he : env.stateErr with
      | none => rfl
      | some x => rw [he] at h1; simp at h1
    have hvalid : env.stateValid = true := by
      rcases Bool.or_eq_false_iff.mp h0 with ⟨_, h2⟩
      simpa using h2
    cases hex : env.exchange env.code with
    | error e =>
      constructor
      · exact Or.inl
          ⟨"Forbidden", by simp [userUpdateCustomOauthCallback, h0, hex]⟩
      · intro loc hl
        simp [userUpdateCustomOauthCallback, h0, hex] at hl
    | ok t =>
      cases hv : t.valid with
      | false =>
        constructor
        · exact Or.inl
            ⟨"Forbidden",
             by simp [userUpdateCustomOauthCallback, h0, hex, hv]⟩
        · intro loc hl
          simp [userUpdateCustomOauthCallback, h0, hex, hv] at hl
      | true =>
        cases hup : env.upsert with
        | error ue =>
          cases ue with
          | notInRestrictedDomain =>
            constructor
            · exact Or.inl ⟨"Email is not in the restricted domain group.",
                by simp [userUpdateCustomOauthCallback, h0, hex, hv, hup]⟩
            · intro loc hl
              simp [userUpdateCustomOauthCallback, h0, hex, hv, hup] at hl
          | other m =>
            constructor
            · exact Or.inl ⟨"Internal error.",
                by simp [userUpdateCustomOauthCallback, h0, hex, hv, hup]⟩
            · intro loc hl
              simp [userUpdateCustomOauthCallback, h0, hex, hv, hup] at hl
        | ok u =>
          cases hsv : env.saveAuthenticated u with
          | some m =>
            constructor
            · exact Or.inl ⟨"Internal error.", by
                simp [userUpdateCustomOauthCallback, h0, hex, hv, hup, hsv]⟩
            · intro loc hl
              simp [userUpdateCustomOauthCallback, h0, hex, hv, hup,
                hsv] at hl
          | none =>
            constructor
            · exact Or.inr (by
                simp [userUpdateCustomOauthCallback, h0, hex, hv, hup, hsv])
            · intro loc hl
              simp [userUpdateCustomOauthCallback, h0, hex, hv, hup,
                hsv] at hl
              exact ⟨hl.symm, hnone, hvalid, ⟨t, rfl, hv⟩, ⟨u, rfl, hsv⟩⟩

theorem callback_never_raw_error_witness :
    userUpdateCustomOauthCallback demoCallbackEnv
      = CallbackResponse.found302 "https://app.example.com" ∧
    ((∃ msg, userUpdateCustomOauthCallback demoCallbackEnv
        = CallbackResponse.redirectWithError msg) ∨
      userUpdateCustomOauthCallback demoCallbackEnv
        = CallbackResponse.found302 demoCallbackEnv.serverURL) :=
  ⟨rfl, (callback_never_raw_error demoCallbackEnv).1⟩

end Hatchet
